import Mathlib

/-!
Verification of the xtabbie window switcher (src/icons.rs, src/switcher.rs,
src/ui.rs, src/window.rs) against its natural-language specification.

The Rust source is shallowly embedded: machine integers are modelled as
`Nat`/`Int` with explicit `% 2^w` wherever the source's fixed-width
arithmetic can wrap, fallible or panicking operations return `Option`,
and the X11 connection is modelled as an oracle plus an explicit trace of
protocol effects.
-/

namespace Xtabbie

/-! ### Constants (src/switcher.rs lines 16-26) -/

def TAB_KEYCODE : Nat := 23
def ALT_L_KEYCODE : Nat := 64
def ALT_R_KEYCODE : Nat := 108
def ESCAPE_KEYCODE : Nat := 9
def RETURN_KEYCODE : Nat := 36

def ICON_SIZE : Nat := 48
def PADDING : Nat := 8
def TITLE_HEIGHT : Nat := 24
def MAX_COLS : Nat := 20

/-! ### Icon data model (src/icons.rs) -/

/-- A 1-bit black and white icon (`BwIcon` in src/icons.rs): `data` holds
`width * height` pixels in row-major order, `true` = black. -/
structure BwIcon where
  width : Nat
  height : Nat
  data : List Bool
deriving DecidableEq

/-- Nearest-neighbor rescale (`BwIcon::scale`, src/icons.rs lines 16-33).
For each destination pixel `(x, y)` of the `target_size × target_size`
result, the source pixel `(x*w/target, y*h/target)` is sampled;
out-of-range indices give white (`unwrap_or(false)`).  The nested
`for y { for x { push } }` loop is rendered as a `flatMap` over rows. -/
def BwIcon.scale (icon : BwIcon) (target_size : Nat) : BwIcon :=
  { width := target_size
    height := target_size
    data := (List.range target_size).flatMap (fun y =>
      (List.range target_size).map (fun x =>
        icon.data.getD ((y * icon.height / target_size) * icon.width +
          (x * icon.width / target_size)) false)) }

/-! ### Helper lemmas about `scale` -/

lemma flatMap_range_map {α : Type} (f : Nat → Nat → α) (n m : Nat) :
    (List.range n).flatMap (fun y => (List.range m).map (f y)) =
      (List.range (n * m)).map (fun i => f (i / m) (i % m)) := by
  induction n with
  | zero => simp
  | succ n ih =>
    rw [List.range_succ, List.flatMap_append, ih, Nat.succ_mul, List.range_add,
      List.map_append]
    congr 1
    simp only [List.flatMap_cons, List.flatMap_nil, List.append_nil, List.map_map]
    refine List.map_congr_left (fun j hj => ?_)
    have hjm : j < m := List.mem_range.mp hj
    have hm : 0 < m := Nat.pos_of_ne_zero (by omega)
    have hdiv : (n * m + j) / m = n := by
      rw [Nat.add_comm, Nat.mul_comm n m, Nat.add_mul_div_left _ _ hm,
        Nat.div_eq_of_lt hjm, Nat.zero_add]
    have hmod : (n * m + j) % m = j := by
      rw [Nat.add_comm, Nat.mul_comm n m, Nat.add_mul_mod_self_left,
        Nat.mod_eq_of_lt hjm]
    simp [Function.comp, hdiv, hmod]

lemma getD_map_range {α : Type} (g : Nat → α) (k i : Nat) (d : α) (h : i < k) :
    ((List.range k).map g).getD i d = g i := by
  rw [List.getD_eq_getElem?_getD, List.getElem?_eq_getElem (by simpa using h)]
  simp

/-- The data list produced by `scale` as a flat row-major table. -/
lemma scale_data_eq (icon : BwIcon) (S : Nat) :
    (icon.scale S).data = (List.range (S * S)).map (fun i =>
      icon.data.getD ((i / S * icon.height / S) * icon.width +
        (i % S * icon.width / S)) false) := by
  unfold BwIcon.scale
  exact flatMap_range_map _ S S

lemma map_range_getD {α : Type} (l : List α) (d : α) :
    (List.range l.length).map (fun i => l.getD i d) = l := by
  refine List.ext_getElem (by simp) (fun i h1 h2 => ?_)
  have hi : i < l.length := by simpa using h2
  simp [List.getD_eq_getElem?_getD, List.getElem?_eq_getElem hi]

lemma BwIcon.eq_of_fields {a b : BwIcon} (hw : a.width = b.width)
    (hh : a.height = b.height) (hd : a.data = b.data) : a = b := by
  cases a; cases b; simp_all

lemma scale_data_length (icon : BwIcon) (S : Nat) :
    (icon.scale S).data.length = S * S := by
  rw [scale_data_eq]; simp

/-- C7: nearest-neighbor rescaling is idempotent in size:
`scale (scale icon S) S = scale icon S` for every bitmap and size `S`
(equal width, height and pixel data). -/
theorem c7_scale_idempotent (icon : BwIcon) (S : Nat) :
    (icon.scale S).scale S = icon.scale S := by
  rcases Nat.eq_zero_or_pos S with hS | hS
  · subst hS; rfl
  refine BwIcon.eq_of_fields rfl rfl ?_
  have hh : (icon.scale S).height = S := rfl
  have hw : (icon.scale S).width = S := rfl
  calc ((icon.scale S).scale S).data
      = (List.range (S * S)).map (fun i =>
          (icon.scale S).data.getD ((i / S * S / S) * S + (i % S * S / S)) false) := by
        rw [scale_data_eq (icon.scale S) S, hh, hw]
    _ = (List.range (S * S)).map (fun i => (icon.scale S).data.getD i false) := by
        refine List.map_congr_left (fun i _ => ?_)
        have h1 : i / S * S / S = i / S := Nat.mul_div_cancel _ hS
        have h2 : i % S * S / S = i % S := Nat.mul_div_cancel _ hS
        rw [h1, h2, Nat.mul_comm (i / S) S, Nat.div_add_mod]
    _ = (icon.scale S).data := by
        conv_lhs => rw [← scale_data_length icon S]
        exact map_range_getD _ _

/-! ### Icon record parsing (src/icons.rs, `find_best_icon` / `should_replace_best`)

The `_NET_WM_ICON` property is a flat sequence of 32-bit words.  Words are
modelled as `Nat`; every arithmetic operation the source performs on a
fixed-width integer carries an explicit `% 2^32` (release-mode wrapping
semantics), and the `i32` casts and operations are modelled on `Int` with
explicit two's-complement wrapping. -/

/-- Value of a `u32` word reinterpreted as `i32` (Rust `as i32` cast). -/
def toI32 (x : Nat) : Int :=
  if x % 4294967296 < 2147483648 then ((x % 4294967296 : Nat) : Int)
  else ((x % 4294967296 : Nat) : Int) - 4294967296

/-- Two's-complement wrap of an `Int` into the `i32` range. -/
def wrap32i (x : Int) : Int :=
  (x + 2147483648) % 4294967296 - 2147483648

/-- Model of `i32::abs` with release-mode semantics (`i32::MIN.abs()` wraps to itself). -/
def abs32 (x : Int) : Int := wrap32i |x|

/-- The score `(bw as i32 - target).abs() + (bh as i32 - target).abs()`
computed exactly as the source does, in wrapping `i32` arithmetic
(src/icons.rs lines 104-106). -/
def score32 (w h : Nat) (target : Int) : Int :=
  wrap32i (abs32 (wrap32i (toI32 w - target)) + abs32 (wrap32i (toI32 h - target)))

/-- Embedding of `should_replace_best` (src/icons.rs lines 94-109): replace the current
best record when the new record scores strictly lower, or ties and has
`width >= target_size as u32`. -/
def should_replace_best (best : Option (Nat × Nat × List Nat))
    (width height target_size : Nat) : Bool :=
  match best with
  | none => true
  | some (bw, bh, _) =>
    let target : Int := (target_size : Int)
    let best_diff := score32 bw bh target
    let this_diff := score32 width height target
    decide (this_diff < best_diff ∨ (this_diff = best_diff ∧ target_size ≤ width))

/-- Loop body of `find_best_icon` (src/icons.rs lines 69-92), written as a
recursion on an explicit fuel.  `rest` is the suffix of the word buffer from
the current `idx`; the loop runs while `idx + 2 < data.len()`, i.e. while
`2 < rest.length`.  The declared pixel count is `(width * height) as usize`,
a `u32` multiplication, hence the explicit `% 2^32`.  Every buffer access of
the source is bounds-checked here: the result is `none` exactly when an
access outside the buffer (or fuel exhaustion) would occur, which the no-
overrun theorem rules out. -/
def find_best_icon_go (target_size : Nat) :
    Nat → List Nat → Option (Nat × Nat × List Nat) →
      Option (Option (Nat × Nat × List Nat))
  | 0, rest, best => if 2 < rest.length then none else some best
  | fuel + 1, rest, best =>
    if 2 < rest.length then
      match rest with
      | width :: height :: tail =>
        let pixel_count := (width * height) % 4294967296
        if width = 0 ∨ height = 0 ∨ rest.length < 2 + pixel_count then some best
        else
          let pixels := tail.take pixel_count
          let best' := if should_replace_best best width height target_size then
              some (width, height, pixels)
            else best
          find_best_icon_go target_size fuel (tail.drop pixel_count) best'
      | _ => none
    else some best

/-- Embedding of `find_best_icon` (src/icons.rs lines 69-92) on a word buffer. -/
def find_best_icon (data : List Nat) (target_size : Nat) :
    Option (Option (Nat × Nat × List Nat)) :=
  find_best_icon_go target_size (data.length + 1) data none

/-- Concatenation of icon records into a raw word buffer:
each record is `[width, height] ++ pixels`. -/
def encodeRecords : List (Nat × Nat × List Nat) → List Nat
  | [] => []
  | (w, h, px) :: rs => w :: h :: (px ++ encodeRecords rs)

/-- A record the parser accepts and steps over: nonzero dimensions and a
pixel list whose length is the declared count `(w * h) % 2^32` (nonzero, so
that the parser's loop guard keeps running on it). -/
def ValidRecord (r : Nat × Nat × List Nat) : Prop :=
  0 < r.1 ∧ 0 < r.2.1 ∧ r.2.2.length = (r.1 * r.2.1) % 4294967296 ∧
    0 < (r.1 * r.2.1) % 4294967296

instance : DecidablePred ValidRecord := fun r => by
  unfold ValidRecord; infer_instance

/-- Trailing garbage on which the parser's loop stops: fewer than three
words remain, or the next header is zero-sized or declares more pixels
than remain. -/
def stopsParse (g : List Nat) : Bool :=
  match g with
  | w :: h :: _ =>
    decide (g.length ≤ 2) ||
      decide (w = 0 ∨ h = 0 ∨ g.length < 2 + (w * h) % 4294967296)
  | _ => true

/-- The pure selection fold over a record list, using the source's
`should_replace_best` test in parse order. -/
def foldBest (target_size : Nat) (best : Option (Nat × Nat × List Nat))
    (rs : List (Nat × Nat × List Nat)) : Option (Nat × Nat × List Nat) :=
  rs.foldl (fun b r =>
    if should_replace_best b r.1 r.2.1 target_size then some r else b) best

/-- The mathematical (unbounded) distance score of the specification. -/
def mscore (w h target : Nat) : Int :=
  |(w : Int) - (target : Int)| + |(h : Int) - (target : Int)|

/-- Every buffer access of the parser is in bounds: the checked parser
never returns the out-of-bounds marker, for any buffer and enough fuel. -/
lemma find_best_icon_go_isSome (target : Nat) :
    ∀ (fuel : Nat) (rest : List Nat) (best : Option (Nat × Nat × List Nat)),
      rest.length ≤ fuel → (find_best_icon_go target fuel rest best).isSome := by
  intro fuel
  induction fuel with
  | zero =>
    intro rest best hle
    have h2 : ¬ 2 < rest.length := by omega
    simp [find_best_icon_go, h2]
  | succ fuel ih =>
    intro rest best hle
    cases rest with
    | nil => simp [find_best_icon_go]
    | cons width rest1 =>
      cases rest1 with
      | nil => simp [find_best_icon_go]
      | cons height tail =>
        by_cases h2 : 2 < (width :: height :: tail).length
        · simp only [find_best_icon_go, if_pos h2]
          by_cases hbrk : width = 0 ∨ height = 0 ∨
              (width :: height :: tail).length < 2 + (width * height) % 4294967296
          · rw [if_pos hbrk]; simp
          · rw [if_neg hbrk]
            apply ih
            simp only [List.length_cons, List.length_drop] at hle ⊢
            omega
        · have htl : tail = [] := by
            simp only [List.length_cons] at h2
            exact List.eq_nil_of_length_eq_zero (by omega)
          subst htl
          simp [find_best_icon_go]

lemma find_best_icon_isSome (data : List Nat) (target : Nat) :
    (find_best_icon data target).isSome :=
  find_best_icon_go_isSome target (data.length + 1) data none (by omega)

/-- Parsing a buffer of well-formed records followed by stopping garbage
performs exactly the selection fold over the records. -/
lemma find_best_icon_go_encode (target : Nat) :
    ∀ (rs : List (Nat × Nat × List Nat)) (fuel : Nat) (g : List Nat)
      (best : Option (Nat × Nat × List Nat)),
      (∀ r ∈ rs, ValidRecord r) → stopsParse g = true → rs.length < fuel →
      find_best_icon_go target fuel (encodeRecords rs ++ g) best =
        some (foldBest target best rs) := by
  intro rs
  induction rs with
  | nil =>
    intro fuel g best _ hg hf
    obtain ⟨fuel, rfl⟩ : ∃ f, fuel = f + 1 := ⟨fuel - 1, by omega⟩
    simp only [encodeRecords, List.nil_append, foldBest, List.foldl_nil]
    by_cases h2 : 2 < g.length
    · cases g with
      | nil => simp at h2
      | cons w g1 =>
        cases g1 with
        | nil => simp at h2
        | cons hh t =>
          simp only [stopsParse, Bool.or_eq_true, decide_eq_true_eq] at hg
          simp only [List.length_cons] at h2
          rcases hg with hg | hg
          · simp only [List.length_cons] at hg; omega
          · simp only [find_best_icon_go, if_pos h2, if_pos hg]
            simp
    · simp [find_best_icon_go, h2]
  | cons r rs ih =>
    intro fuel g best hv hg hf
    obtain ⟨w, h, px⟩ := r
    obtain ⟨fuel, rfl⟩ : ∃ f, fuel = f + 1 := ⟨fuel - 1, by omega⟩
    obtain ⟨hw, hh, hlen, hpc⟩ : ValidRecord (w, h, px) := hv _ (by simp)
    simp only at hw hh hlen hpc
    have hshape : encodeRecords ((w, h, px) :: rs) ++ g =
        w :: h :: (px ++ (encodeRecords rs ++ g)) := by
      simp [encodeRecords]
    rw [hshape]
    have h2 : 2 < (w :: h :: (px ++ (encodeRecords rs ++ g))).length := by
      simp; omega
    have hnobrk : ¬ (w = 0 ∨ h = 0 ∨
        (w :: h :: (px ++ (encodeRecords rs ++ g))).length <
          2 + (w * h) % 4294967296) := by
      simp only [List.length_cons, List.length_append]
      push_neg
      exact ⟨by omega, by omega, by omega⟩
    simp only [find_best_icon_go, if_pos h2, if_neg hnobrk]
    have htake : (px ++ (encodeRecords rs ++ g)).take ((w * h) % 4294967296) = px := by
      rw [← hlen]; exact List.take_left px _
    have hdrop : (px ++ (encodeRecords rs ++ g)).drop ((w * h) % 4294967296) =
        encodeRecords rs ++ g := by
      rw [← hlen]; exact List.drop_left px _
    rw [htake, hdrop]
    have hstep : foldBest target best ((w, h, px) :: rs) =
        foldBest target (if should_replace_best best w h target then
          some (w, h, px) else best) rs := by
      simp [foldBest]
    rw [hstep]
    exact ih fuel g _ (fun r hr => hv r (by simp [hr])) hg (by simpa using hf)

lemma encode_length_ge (rs : List (Nat × Nat × List Nat)) :
    rs.length ≤ (encodeRecords rs).length := by
  induction rs with
  | nil => simp [encodeRecords]
  | cons r rs ih =>
    obtain ⟨w, h, px⟩ := r
    simp only [encodeRecords, List.length_cons, List.length_append]
    omega

lemma find_best_icon_encode (rs : List (Nat × Nat × List Nat)) (g : List Nat)
    (target : Nat) (hv : ∀ r ∈ rs, ValidRecord r) (hg : stopsParse g = true) :
    find_best_icon (encodeRecords rs ++ g) target =
      some (foldBest target none rs) := by
  unfold find_best_icon
  apply find_best_icon_go_encode target rs _ g none hv hg
  have := encode_length_ge rs
  simp only [List.length_append]
  omega

/-- C4 (amended): the icon record parser never reads past the end of the
buffer — on any word buffer the bounds-checked embedding completes without
an out-of-bounds access — and a buffer of well-formed records followed by
truncated, zero-sized or overrunning trailing data decodes exactly as the
records alone: the trailing data is silently ignored.  (The declared pixel
count is `width * height` computed in 32-bit arithmetic, i.e. mod `2^32`.) -/
theorem c4_parser_no_overrun :
    (∀ (data : List Nat) (target : Nat), (find_best_icon data target).isSome) ∧
    (∀ (rs : List (Nat × Nat × List Nat)) (g : List Nat) (target : Nat),
      (∀ r ∈ rs, ValidRecord r) → stopsParse g = true →
      find_best_icon (encodeRecords rs ++ g) target =
        find_best_icon (encodeRecords rs) target) := by
  refine ⟨find_best_icon_isSome, fun rs g target hv hg => ?_⟩
  rw [find_best_icon_encode rs g target hv hg]
  have h2 : encodeRecords rs = encodeRecords rs ++ ([] : List Nat) := by simp
  rw [h2, find_best_icon_encode rs [] target hv (by decide)]

/-- Witness for C4 at a concrete record and concrete overrunning garbage. -/
theorem c4_witness :
    (find_best_icon [1, 1, 5] 48).isSome ∧
    find_best_icon (encodeRecords [(1, 1, [5])] ++ [0, 0, 7]) 48 =
      find_best_icon (encodeRecords [(1, 1, [5])]) 48 :=
  ⟨c4_parser_no_overrun.1 [1, 1, 5] 48,
   c4_parser_no_overrun.2 [(1, 1, [5])] [0, 0, 7] 48 (by decide) (by decide)⟩

/-- Counterexample to C4 as stated: the first record of this buffer
declares `65536 * 65536 = 2^32` pixels — far more than the 3 remaining
words — yet because the pixel count is computed in `u32` arithmetic it
wraps to 0 and the parse does *not* stop there: it continues and returns
the later `(1,1)` record instead of stopping with no record. -/
theorem c4_counterexample :
    3 < 65536 * 65536 ∧
    find_best_icon [65536, 65536, 1, 1, 99] 48 = some (some (1, 1, [99])) := by
  constructor
  · decide
  · decide

/-! ### Best-icon selection (C5) -/

lemma wrap32i_eq_self {x : Int} (h1 : -2147483648 ≤ x) (h2 : x < 2147483648) :
    wrap32i x = x := by
  unfold wrap32i; omega

lemma toI32_eq_self {x : Nat} (h : x < 2147483648) : toI32 x = (x : Int) := by
  unfold toI32
  rw [Nat.mod_eq_of_lt (by omega)]
  simp [h]

lemma abs32_eq_abs {x : Int} (h : |x| < 2147483648) : abs32 x = |x| :=
  wrap32i_eq_self (le_trans (by omega) (abs_nonneg x)) h

/-- Below `2^30` the wrapping `i32` score agrees with the mathematical
distance score. -/
lemma score32_eq_mscore {w h t : Nat} (hw : w < 1073741824)
    (hh : h < 1073741824) (ht : t < 1073741824) :
    score32 w h (t : Int) = mscore w h t := by
  have haw : |(w : Int) - (t : Int)| < 1073741824 := abs_lt.mpr ⟨by omega, by omega⟩
  have hah : |(h : Int) - (t : Int)| < 1073741824 := abs_lt.mpr ⟨by omega, by omega⟩
  have haw0 : 0 ≤ |(w : Int) - (t : Int)| := abs_nonneg _
  have hah0 : 0 ≤ |(h : Int) - (t : Int)| := abs_nonneg _
  unfold score32 mscore
  rw [toI32_eq_self (by omega), toI32_eq_self (by omega),
    wrap32i_eq_self (x := (w : Int) - (t : Int)) (by omega) (by omega),
    wrap32i_eq_self (x := (h : Int) - (t : Int)) (by omega) (by omega),
    abs32_eq_abs (by omega), abs32_eq_abs (by omega),
    wrap32i_eq_self (by omega) (by omega)]

/-- Characterization of `should_replace_best` through the mathematical
score, for dimensions and target below `2^30`. -/
lemma should_replace_best_iff (b r : Nat × Nat × List Nat) (t : Nat)
    (hb1 : b.1 < 1073741824) (hb2 : b.2.1 < 1073741824)
    (hr1 : r.1 < 1073741824) (hr2 : r.2.1 < 1073741824) (ht : t < 1073741824) :
    should_replace_best (some b) r.1 r.2.1 t = true ↔
      (mscore r.1 r.2.1 t < mscore b.1 b.2.1 t ∨
        (mscore r.1 r.2.1 t = mscore b.1 b.2.1 t ∧ t ≤ r.1)) := by
  obtain ⟨bw, bh, bpx⟩ := b
  simp only at hb1 hb2
  unfold should_replace_best
  simp only [decide_eq_true_eq]
  rw [score32_eq_mscore hr1 hr2 ht, score32_eq_mscore hb1 hb2 ht]

/-- Invariant of the selection fold: starting from an initial record, the
fold returns a record of minimal score among those seen, and when any
minimal-score record has width at least the target, so does the result. -/
lemma foldBest_invariant (t : Nat) (ht : t < 1073741824) :
    ∀ (rs : List (Nat × Nat × List Nat)) (acc : Nat × Nat × List Nat),
      (∀ r ∈ rs, r.1 < 1073741824 ∧ r.2.1 < 1073741824) →
      acc.1 < 1073741824 → acc.2.1 < 1073741824 →
      ∃ b, foldBest t (some acc) rs = some b ∧ (b = acc ∨ b ∈ rs) ∧
        (b.1 < 1073741824 ∧ b.2.1 < 1073741824) ∧
        mscore b.1 b.2.1 t ≤ mscore acc.1 acc.2.1 t ∧
        (∀ r ∈ rs, mscore b.1 b.2.1 t ≤ mscore r.1 r.2.1 t) ∧
        (((t ≤ acc.1 ∧ mscore acc.1 acc.2.1 t = mscore b.1 b.2.1 t) ∨
          (∃ r ∈ rs, mscore r.1 r.2.1 t = mscore b.1 b.2.1 t ∧ t ≤ r.1)) →
          t ≤ b.1) := by
  intro rs
  induction rs with
  | nil =>
    intro acc _ h1 h2
    refine ⟨acc, by simp [foldBest], Or.inl rfl, ⟨h1, h2⟩, le_refl _, by simp, ?_⟩
    rintro (⟨hta, _⟩ | ⟨r, hr, _⟩)
    · exact hta
    · simp at hr
  | cons r rs ih =>
    intro acc hbd h1 h2
    obtain ⟨hr1, hr2⟩ := hbd r (by simp)
    have hrs : ∀ x ∈ rs, x.1 < 1073741824 ∧ x.2.1 < 1073741824 :=
      fun x hx => hbd x (by simp [hx])
    have hiff := should_replace_best_iff acc r t h1 h2 hr1 hr2 ht
    by_cases hrep : should_replace_best (some acc) r.1 r.2.1 t = true
    · have hrep' := hiff.mp hrep
      obtain ⟨b, hfold, hmem, hbbd, hble, hmin, htie⟩ := ih r hrs hr1 hr2
      have hracc : mscore r.1 r.2.1 t ≤ mscore acc.1 acc.2.1 t := by
        rcases hrep' with hlt | ⟨heq, _⟩
        · exact le_of_lt hlt
        · exact le_of_eq heq
      refine ⟨b, ?_, ?_, hbbd, le_trans hble hracc, ?_, ?_⟩
      · have : foldBest t (some acc) (r :: rs) = foldBest t (some r) rs := by
          simp [foldBest, hrep]
        rw [this]; exact hfold
      · rcases hmem with rfl | hb
        · exact Or.inr (by simp)
        · exact Or.inr (by simp [hb])
      · intro x hx
        rcases List.mem_cons.mp hx with rfl | hx
        · exact hble
        · exact hmin x hx
      · rintro (⟨hta, heq⟩ | ⟨x, hx, hxeq, hxt⟩)
        · -- score acc = score b forces all three scores equal
          have heq2 : mscore r.1 r.2.1 t = mscore acc.1 acc.2.1 t := by
            have := le_trans hble hracc
            omega
          have hrt : t ≤ r.1 := by
            rcases hrep' with hlt | ⟨_, hh'⟩
            · omega
            · exact hh'
          exact htie (Or.inl ⟨hrt, by omega⟩)
        · rcases List.mem_cons.mp hx with rfl | hx2
          · exact htie (Or.inl ⟨hxt, hxeq⟩)
          · exact htie (Or.inr ⟨x, hx2, hxeq, hxt⟩)
    · have hrep' : ¬ (mscore r.1 r.2.1 t < mscore acc.1 acc.2.1 t ∨
          (mscore r.1 r.2.1 t = mscore acc.1 acc.2.1 t ∧ t ≤ r.1)) :=
        fun hc => hrep (hiff.mpr hc)
      push_neg at hrep'
      obtain ⟨hge, himp⟩ := hrep'
      obtain ⟨b, hfold, hmem, hbbd, hble, hmin, htie⟩ := ih acc hrs h1 h2
      refine ⟨b, ?_, ?_, hbbd, hble, ?_, ?_⟩
      · have : foldBest t (some acc) (r :: rs) = foldBest t (some acc) rs := by
          simp [foldBest, hrep]
        rw [this]; exact hfold
      · rcases hmem with rfl | hb
        · exact Or.inl rfl
        · exact Or.inr (by simp [hb])
      · intro x hx
        rcases List.mem_cons.mp hx with rfl | hx
        · exact le_trans hble hge
        · exact hmin x hx
      · rintro (⟨hta, heq⟩ | ⟨x, hx, hxeq, hxt⟩)
        · exact htie (Or.inl ⟨hta, heq⟩)
        · rcases List.mem_cons.mp hx with rfl | hx2
          · -- x = r ties the minimum: contradicts that r did not replace acc
            have hreq : mscore x.1 x.2.1 t = mscore acc.1 acc.2.1 t := by
              have h3 := hble
              omega
            exact absurd hxt (not_le.mpr (himp hreq))
          · exact htie (Or.inr ⟨x, hx2, hxeq, hxt⟩)

/-- C5 (amended): among the fully-parsed records of an icon buffer, the
decoder selects a record of minimal distance score, and on a tie prefers a
record whose width is at least the target — provided all dimensions and the
target are below `2^30`, where the source's 32-bit signed score arithmetic
agrees with the mathematical score.  In particular, for the records
`(16,16)`, `(32,32)`, `(64,64)` and target 48, the `(64,64)` record is
chosen. -/
theorem c5_best_icon_minimizes :
    (∀ (rs : List (Nat × Nat × List Nat)) (target : Nat)
        (b : Nat × Nat × List Nat),
      (∀ r ∈ rs, ValidRecord r) →
      (∀ r ∈ rs, r.1 < 1073741824 ∧ r.2.1 < 1073741824) →
      target < 1073741824 →
      find_best_icon (encodeRecords rs) target = some (some b) →
      b ∈ rs ∧
        (∀ r ∈ rs, mscore b.1 b.2.1 target ≤ mscore r.1 r.2.1 target) ∧
        ((∃ r ∈ rs, mscore r.1 r.2.1 target = mscore b.1 b.2.1 target ∧
            target ≤ r.1) → target ≤ b.1)) ∧
    find_best_icon (encodeRecords
        [(16, 16, List.replicate 256 0), (32, 32, List.replicate 1024 0),
          (64, 64, List.replicate 4096 0)]) 48 =
      some (some (64, 64, List.replicate 4096 0)) := by
  constructor
  · intro rs target b hv hbd ht heq
    have henc := find_best_icon_encode rs [] target hv (by decide)
    rw [List.append_nil] at henc
    rw [henc] at heq
    cases rs with
    | nil => simp [foldBest] at heq
    | cons r0 rest =>
      have hstep : foldBest target none (r0 :: rest) =
          foldBest target (some r0) rest := by
        simp [foldBest, should_replace_best]
      rw [hstep] at heq
      obtain ⟨hr01, hr02⟩ := hbd r0 (by simp)
      have hrest : ∀ x ∈ rest, x.1 < 1073741824 ∧ x.2.1 < 1073741824 :=
        fun x hx => hbd x (by simp [hx])
      obtain ⟨b', hfold, hmem, _, hble, hmin, htie⟩ :=
        foldBest_invariant target ht rest r0 hrest hr01 hr02
      rw [hfold] at heq
      obtain rfl : b' = b := by
        injection heq with heq2
        injection heq2
      refine ⟨?_, ?_, ?_⟩
      · rcases hmem with rfl | hb
        · simp
        · simp [hb]
      · intro x hx
        rcases List.mem_cons.mp hx with rfl | hx
        · exact hble
        · exact hmin x hx
      · rintro ⟨x, hx, hxeq, hxt⟩
        rcases List.mem_cons.mp hx with rfl | hx2
        · exact htie (Or.inl ⟨hxt, hxeq⟩)
        · exact htie (Or.inr ⟨x, hx2, hxeq, hxt⟩)
  · have hval : ∀ r ∈ [((16:Nat), (16:Nat), List.replicate 256 (0:Nat)),
        (32, 32, List.replicate 1024 0), (64, 64, List.replicate 4096 0)],
        ValidRecord r := by
      intro r hr
      simp only [List.mem_cons, List.not_mem_nil, or_false] at hr
      rcases hr with rfl | rfl | rfl
      · exact ⟨by decide, by decide,
          by show (List.replicate 256 (0:Nat)).length = 16 * 16 % 4294967296
             rw [List.length_replicate], by decide⟩
      · exact ⟨by decide, by decide,
          by show (List.replicate 1024 (0:Nat)).length = 32 * 32 % 4294967296
             rw [List.length_replicate], by decide⟩
      · exact ⟨by decide, by decide,
          by show (List.replicate 4096 (0:Nat)).length = 64 * 64 % 4294967296
             rw [List.length_replicate], by decide⟩
    have henc := find_best_icon_encode
      [(16, 16, List.replicate 256 0), (32, 32, List.replicate 1024 0),
        (64, 64, List.replicate 4096 0)] [] 48 hval (by decide)
    rw [List.append_nil] at henc
    rw [henc]
    rfl

/-- Witness for C5: on the concrete two-record buffer `(1,1)`, `(3,3)` with
target 48 the decoder picks `(3,3)`, whose score is minimal. -/
theorem c5_witness :
    mscore 3 3 48 ≤ mscore 1 1 48 :=
  ((c5_best_icon_minimizes.1
      [(1, 1, [7]), (3, 3, List.replicate 9 0)] 48 (3, 3, List.replicate 9 0)
      (by decide) (by decide) (by decide) (by decide)).2.1
    (1, 1, [7]) (by simp))

/-- Counterexample to C5 as stated: the score is computed in wrapping
32-bit signed arithmetic, so a fully-parsed record of dimensions
`2^31 × 2^31` gets wrapped score `-96`, beating the genuine minimizer
`(1,1)`; the decoder returns the `2^31 × 2^31` record even though its
mathematical distance score is astronomically larger. -/
theorem c5_counterexample :
    find_best_icon [1, 1, 77, 2147483648, 2147483648, 0] 48 =
      some (some (2147483648, 2147483648, [])) ∧
    mscore 1 1 48 < mscore 2147483648 2147483648 48 := by
  constructor
  · decide
  · decide

/-! ### ARGB to monochrome conversion (src/icons.rs, `argb_to_bw`) -/

/-- Per-pixel blended value of `argb_to_bw` (src/icons.rs lines 123-141):
normalized alpha `a = A/255`, BT.601 luminance
`L = (0.299 R + 0.587 G + 0.114 B) / 255`, blended against a white
background as `L * a + (1 - a)`.  The source computes in `f32`; the same
formula is evaluated here exactly over `ℚ` (at every comparison proved
below the margin to the `1/2` threshold is many orders of magnitude larger
than `f32` rounding error, so the threshold decisions agree). -/
def argbValue (argb : Nat) : ℚ :=
  let a : ℚ := (((argb / 16777216) % 256 : Nat) : ℚ) / 255
  let r : ℚ := (((argb / 65536) % 256 : Nat) : ℚ)
  let g : ℚ := (((argb / 256) % 256 : Nat) : ℚ)
  let b : ℚ := ((argb % 256 : Nat) : ℚ)
  let lum := (299 / 1000 * r + 587 / 1000 * g + 114 / 1000 * b) / 255
  lum * a + (1 - a)

/-- One pixel of `argb_to_bw`: `true` (black ink) iff the blended value
lies strictly below the 0.5 threshold. -/
def argbToBwPixel (argb : Nat) : Bool := decide (argbValue argb < 1 / 2)

/-- Embedding of `argb_to_bw` (src/icons.rs lines 123-141) over a pixel buffer. -/
def argb_to_bw (pixels : List Nat) : List Bool := pixels.map argbToBwPixel

/-- C6: the color reduction computes `a = A/255`,
`L = (0.299 R + 0.587 G + 0.114 B)/255`, `value = L*a + (1-a)` and marks a
pixel foreground iff `value < 0.5`; consequently opaque black `0xFF000000`
converts to foreground, opaque white `0xFFFFFFFF` to background, and fully
transparent `0x00000000` to background. -/
theorem c6_luminance_threshold :
    (∀ argb : Nat, (argbToBwPixel argb = true ↔
      ((299 / 1000 * (((argb / 65536) % 256 : Nat) : ℚ) +
          587 / 1000 * (((argb / 256) % 256 : Nat) : ℚ) +
          114 / 1000 * ((argb % 256 : Nat) : ℚ)) / 255) *
            ((((argb / 16777216) % 256 : Nat) : ℚ) / 255) +
          (1 - (((argb / 16777216) % 256 : Nat) : ℚ) / 255) < 1 / 2)) ∧
    argb_to_bw [4278190080, 4294967295, 0] = [true, false, false] := by
  constructor
  · intro argb
    simp [argbToBwPixel, argbValue]
  · show [argbToBwPixel 4278190080, argbToBwPixel 4294967295, argbToBwPixel 0] =
      [true, false, false]
    have h1 : argbToBwPixel 4278190080 = true := by
      simp only [argbToBwPixel, argbValue, decide_eq_true_eq]
      norm_num
    have h2 : argbToBwPixel 4294967295 = false := by
      simp only [argbToBwPixel, argbValue, decide_eq_false_iff_not]
      norm_num
    have h3 : argbToBwPixel 0 = false := by
      simp only [argbToBwPixel, argbValue, decide_eq_false_iff_not]
      norm_num
    rw [h1, h2, h3]

/-! ### Window candidates and deduplication (src/switcher.rs, src/window.rs) -/

/-- Candidate shown in the switcher (`WindowInfo` in src/ui.rs). -/
structure WindowInfo where
  wid : Nat
  title : String
  icon : BwIcon
deriving DecidableEq

/-- Embedding of `create_generic_icon` (src/icons.rs lines 144-167): outer border ring,
title-bar band and inner border ring.  (`s - border` is the source's
`usize` subtraction; it is only ever called with `size = ICON_SIZE`.) -/
def create_generic_icon (size : Nat) : BwIcon :=
  let s := size
  let titlebar_h := s / 5
  let border := 2
  { width := size
    height := size
    data := (List.range s).flatMap (fun y =>
      (List.range s).map (fun x =>
        decide (x < border ∨ s - border ≤ x ∨ y < border ∨ s - border ≤ y ∨
          y < titlebar_h + border ∨
          x = border ∨ x = s - border - 1 ∨ y = s - border - 1))) }

/-- The fallback icon attached when `get_window_icon` yields nothing:
`create_generic_icon(ICON_SIZE).scale(ICON_SIZE)` (src/switcher.rs 270/290). -/
def fallback_icon : BwIcon := (create_generic_icon ICON_SIZE).scale ICON_SIZE

/-- Icon attached to a window id; `get_window_icon` is an oracle for the
X11 round trip (src/switcher.rs lines 289-290). -/
def iconFor (getIcon : Nat → Option BwIcon) (wid : Nat) : BwIcon :=
  (getIcon wid).getD fallback_icon

/-- Loop of `deduplicate_windows` (src/switcher.rs lines 269-300): the EWMH
filter `should_show_in_switcher` runs first (modelled by the oracle
`shouldShow`, src/window.rs lines 282-288), then the `seen_titles` hash-set
test, modelled as membership in the list of already-seen titles. -/
def dedup_go (shouldShow : Nat → Bool) (getIcon : Nat → Option BwIcon) :
    List String → List (Nat × String) → List WindowInfo
  | _, [] => []
  | seen, (wid, title) :: rest =>
    if shouldShow wid then
      if title ∈ seen then dedup_go shouldShow getIcon seen rest
      else ⟨wid, title, iconFor getIcon wid⟩ ::
        dedup_go shouldShow getIcon (title :: seen) rest
    else dedup_go shouldShow getIcon seen rest

/-- Embedding of `deduplicate_windows` (src/switcher.rs lines 269-300). -/
def deduplicate_windows (shouldShow : Nat → Bool) (getIcon : Nat → Option BwIcon)
    (window_list : List (Nat × String)) : List WindowInfo :=
  dedup_go shouldShow getIcon [] window_list

/-- Deduplication as worded by the specification: keep the first
occurrence of each title, discard every later pair with the same title,
preserve order.  This is the specification-side definition compared
against the code's `deduplicate_windows` in C9. -/
def spec_dedup_keep_first : List (Nat × String) → List (Nat × String)
  | [] => []
  | (wid, t) :: rest =>
    (wid, t) :: spec_dedup_keep_first (rest.filter (fun p => p.2 ≠ t))
termination_by l => l.length
decreasing_by
  simp only [List.length_cons]
  exact Nat.lt_succ_of_le (List.length_filter_le _ _)

/-! ### Layout computation (src/switcher.rs, `calculate_layout`) -/

/-- Base-2 logarithm by structural recursion (so that it evaluates inside
the kernel); `log2f fuel n = ⌊log2 n⌋` whenever `fuel` bounds the bit
length. -/
def log2f : Nat → Nat → Nat
  | 0, _ => 0
  | fuel + 1, n => if n < 2 then 0 else log2f fuel (n / 2) + 1

/-- Round `p / d` to the nearest integer, ties to even (IEEE-754 default
rounding), for `d > 0`. -/
def roundHalfEven (p d : Nat) : Nat :=
  let q := p / d
  let r := p % d
  if 2 * r < d then q
  else if d < 2 * r then q + 1
  else if q % 2 = 0 then q else q + 1

/-- Exact model of `(w as f32 * 0.8) as u16` (src/switcher.rs line 303)
for `w < 2^16`.  The `f32` literal `0.8` is exactly `13421773 / 2^24` and
`w as f32` is exact, so the product is `w * 13421773 / 2^24`; the `f32`
multiplication rounds it to 24 significant bits (nearest, ties to even),
and the `as u16` cast truncates (the value is below `2^16`, so the cast
never saturates). -/
def mul08TruncU16 (w : Nat) : Nat :=
  let p := w * 13421773
  if p = 0 then 0
  else
    let e := log2f 64 p
    if e ≤ 23 then p / 16777216
    else roundHalfEven p (2 ^ (e - 23)) * 2 ^ (e - 23) / 16777216

/-- Grid geometry (`Layout` in src/ui.rs). -/
structure Layout where
  cols : Nat
  icon_size : Nat
  padding : Nat
  win_width : Nat
deriving DecidableEq

/-- Embedding of `calculate_layout` (src/switcher.rs lines 302-314).  All quantities are
`u16`; `none` models the `u16` underflow panic of `max_width - PADDING`
when `max_width < PADDING` (debug: panic, release: wrap).  The
`usize → u16` cast of `window_count` is the explicit `% 65536`. -/
def calculate_layout (screen_width window_count : Nat) : Option Layout :=
  let max_width := mul08TruncU16 screen_width
  if max_width < PADDING then none
  else
    let max_cols_by_width :=
      max ((max_width - PADDING) / (ICON_SIZE + PADDING)) 1
    let cols :=
      max (min (min (window_count % 65536) max_cols_by_width) MAX_COLS) 1
    some { cols := cols, icon_size := ICON_SIZE, padding := PADDING,
           win_width := (cols * (ICON_SIZE + PADDING) + PADDING) % 65536 }

/-! ### Switcher session state machine (src/switcher.rs)

The X11 event stream is a list of `XEvent`s; the observable protocol
requests of a session form the `Effect` trace.  A loop that exhausts its
event queue is still blocked in `wait_for_event`: it is reported as
non-terminated and emits no further effects. -/

inductive XEvent where
  | expose : XEvent
  | keyPress (detail : Nat) (shift_held : Bool) : XEvent
  | keyRelease (detail : Nat) : XEvent
deriving DecidableEq

inductive Effect where
  | createWindow : Effect
  | createGC : Effect
  | changeProperty : Effect
  | mapWindow : Effect
  | destroyWindow : Effect
  | grabKeyboard : Effect
  | ungrabKeyboard : Effect
  | draw (selected : Nat) : Effect
  | activate (wid : Nat) : Effect
deriving DecidableEq

/-- Protocol requests of `create_x11_window` (src/switcher.rs lines
316-381): create the window, the two graphics contexts, set `WM_NAME`
and map the window. -/
def create_x11_window_trace : List Effect :=
  [Effect.createWindow, Effect.createGC, Effect.createGC,
   Effect.changeProperty, Effect.mapWindow]

/-- Placeholder used for the (never exercised out-of-range) direct index
`windows[selected]` of the source. -/
def dummy_window : WindowInfo := ⟨0, "", ⟨0, 0, []⟩⟩

/-- Embedding of `initial_selection` (src/switcher.rs lines 217-227). -/
def initial_selection (window_count : Nat) (shift_held : Bool) : Nat :=
  if 1 < window_count then
    if shift_held then window_count - 1 else 1
  else 0

/-- Embedding of `navigate_selection` (src/switcher.rs lines 229-240); `shift_held` is
the source's `ev.state & SHIFT` test. -/
def navigate_selection (current count : Nat) (shift_held : Bool) : Nat :=
  if shift_held then
    if current = 0 then count - 1 else current - 1
  else (current + 1) % count

/-- Embedding of `run_switcher_loop` (src/switcher.rs lines 169-215): Expose redraws,
Tab navigates and redraws, Escape returns without activating, releasing
either Alt key activates the selected window and returns; every other
event is ignored.  Returns the emitted effects and whether the loop
returned. -/
def run_switcher_loop (windows : List WindowInfo) :
    Nat → List XEvent → List Effect × Bool
  | _, [] => ([], false)
  | selected, ev :: rest =>
    match ev with
    | XEvent.expose =>
      let r := run_switcher_loop windows selected rest
      (Effect.draw selected :: r.1, r.2)
    | XEvent.keyPress detail shift_held =>
      if detail = TAB_KEYCODE then
        let selected' := navigate_selection selected windows.length shift_held
        let r := run_switcher_loop windows selected' rest
        (Effect.draw selected' :: r.1, r.2)
      else if detail = ESCAPE_KEYCODE then ([], true)
      else run_switcher_loop windows selected rest
    | XEvent.keyRelease detail =>
      if detail = ALT_L_KEYCODE ∨ detail = ALT_R_KEYCODE then
        ([Effect.activate ((windows.getD selected dummy_window).wid)], true)
      else run_switcher_loop windows selected rest

/-- Embedding of `show_switcher` (src/switcher.rs lines 129-167) as an effect trace.
`create_switcher_window` runs first: it deduplicates the enumerated
window list, computes the layout (`none` models the `u16` underflow panic
inside `calculate_layout`) and creates + maps the X11 surface
*unconditionally*.  Only then is the empty-candidate check made: if empty,
the window is destroyed and the session ends; otherwise the keyboard is
grabbed, the event loop runs, and on return the keyboard is ungrabbed and
the window destroyed. -/
def show_switcher (shouldShow : Nat → Bool) (getIcon : Nat → Option BwIcon)
    (screen_width : Nat) (window_list : List (Nat × String))
    (shift_held : Bool) (events : List XEvent) : Option (List Effect) :=
  let windows := deduplicate_windows shouldShow getIcon window_list
  match calculate_layout screen_width windows.length with
  | none => none
  | some _ =>
    if windows.length = 0 then
      some (create_x11_window_trace ++ [Effect.destroyWindow])
    else
      let selected := initial_selection windows.length shift_held
      let r := run_switcher_loop windows selected events
      if r.2 then
        some (create_x11_window_trace ++ [Effect.grabKeyboard] ++ r.1 ++
          [Effect.ungrabKeyboard, Effect.destroyWindow])
      else
        some (create_x11_window_trace ++ [Effect.grabKeyboard] ++ r.1)

/-- Event loop of `run_test_mode` (src/switcher.rs lines 54-90): Expose
redraws, Tab navigates and redraws, Return activates the selected window
and breaks, Escape breaks. -/
def run_test_mode_loop (windows : List WindowInfo) :
    Nat → List XEvent → List Effect × Bool
  | _, [] => ([], false)
  | selected, ev :: rest =>
    match ev with
    | XEvent.expose =>
      let r := run_test_mode_loop windows selected rest
      (Effect.draw selected :: r.1, r.2)
    | XEvent.keyPress detail shift_held =>
      if detail = TAB_KEYCODE then
        let selected' := navigate_selection selected windows.length shift_held
        let r := run_test_mode_loop windows selected' rest
        (Effect.draw selected' :: r.1, r.2)
      else if detail = RETURN_KEYCODE then
        ([Effect.activate ((windows.getD selected dummy_window).wid)], true)
      else if detail = ESCAPE_KEYCODE then ([], true)
      else run_test_mode_loop windows selected rest
    | XEvent.keyRelease _ => run_test_mode_loop windows selected rest

/-- Embedding of `run_test_mode` (src/switcher.rs lines 38-93): same construction as
`show_switcher`, but with no keyboard grab, the selection starting at the
literal `0` (line 52) and no destroy on exit. -/
def run_test_mode (shouldShow : Nat → Bool) (getIcon : Nat → Option BwIcon)
    (screen_width : Nat) (window_list : List (Nat × String))
    (events : List XEvent) : Option (List Effect) :=
  let windows := deduplicate_windows shouldShow getIcon window_list
  match calculate_layout screen_width windows.length with
  | none => none
  | some _ =>
    if windows.length = 0 then some create_x11_window_trace
    else some (create_x11_window_trace ++ (run_test_mode_loop windows 0 events).1)

/-! ### C9: deduplication keeps the first occurrence of each title -/

lemma filter_notMem_cons (L : List (Nat × String)) (t : String)
    (seen : List String) :
    L.filter (fun p => decide (¬ p.2 ∈ t :: seen)) =
      (L.filter (fun p => decide (¬ p.2 ∈ seen))).filter (fun p => p.2 ≠ t) := by
  rw [List.filter_filter]
  refine List.filter_congr (fun a _ => ?_)
  by_cases h1 : a.2 = t <;> by_cases h2 : a.2 ∈ seen <;>
    simp [List.mem_cons, h1, h2]

lemma dedup_go_spec (shouldShow : Nat → Bool) (getIcon : Nat → Option BwIcon) :
    ∀ (l : List (Nat × String)) (seen : List String),
      dedup_go shouldShow getIcon seen l =
        (spec_dedup_keep_first ((l.filter (fun p => shouldShow p.1)).filter
          (fun p => decide (¬ p.2 ∈ seen)))).map
          (fun p => ⟨p.1, p.2, iconFor getIcon p.1⟩) := by
  intro l
  induction l with
  | nil => intro seen; simp [dedup_go, spec_dedup_keep_first]
  | cons x rest ih =>
    intro seen
    obtain ⟨wid, title⟩ := x
    by_cases hs : shouldShow wid
    · by_cases hm : title ∈ seen
      · simp only [dedup_go, if_pos hs, if_pos hm]
        rw [ih seen]
        have hfc : (((wid, title) :: rest).filter (fun p => shouldShow p.1)).filter
            (fun p => decide (¬ p.2 ∈ seen)) =
            (rest.filter (fun p => shouldShow p.1)).filter
              (fun p => decide (¬ p.2 ∈ seen)) := by
          simp [List.filter_cons, hs, hm]
        rw [hfc]
      · simp only [dedup_go, if_pos hs, if_neg hm]
        rw [ih (title :: seen)]
        have hfc : (((wid, title) :: rest).filter (fun p => shouldShow p.1)).filter
            (fun p => decide (¬ p.2 ∈ seen)) =
            (wid, title) :: ((rest.filter (fun p => shouldShow p.1)).filter
              (fun p => decide (¬ p.2 ∈ seen))) := by
          simp [List.filter_cons, hs, hm]
        rw [hfc, spec_dedup_keep_first, List.map_cons,
          filter_notMem_cons (rest.filter (fun p => shouldShow p.1)) title seen]
    · simp only [dedup_go, if_neg hs]
      rw [ih seen]
      have hfc : (((wid, title) :: rest).filter (fun p => shouldShow p.1)).filter
          (fun p => decide (¬ p.2 ∈ seen)) =
          (rest.filter (fun p => shouldShow p.1)).filter
            (fun p => decide (¬ p.2 ∈ seen)) := by
        simp [List.filter_cons, hs]
      rw [hfc]

/-- C9: `deduplicate_windows` refines the specification's deduplication
contract — each title survives exactly once, the first (most recent)
occurrence's id and icon are kept, later duplicates are discarded whole,
and the surviving order is the input order; on the titles
`["A","B","A","C"]` the survivors are `["A","B","C"]`. -/
theorem c9_deduplication :
    (∀ (shouldShow : Nat → Bool) (getIcon : Nat → Option BwIcon)
        (l : List (Nat × String)),
      deduplicate_windows shouldShow getIcon l =
        (spec_dedup_keep_first (l.filter (fun p => shouldShow p.1))).map
          (fun p => ⟨p.1, p.2, iconFor getIcon p.1⟩)) ∧
    (deduplicate_windows (fun _ => true) (fun _ => none)
        [(10, "A"), (11, "B"), (12, "A"), (13, "C")]).map
        (fun w => (w.wid, w.title)) = [(10, "A"), (11, "B"), (13, "C")] ∧
    ∀ w ∈ deduplicate_windows (fun _ => true) (fun _ => none)
        [(10, "A"), (11, "B"), (12, "A"), (13, "C")], w.icon = fallback_icon := by
  have hmain : ∀ (shouldShow : Nat → Bool) (getIcon : Nat → Option BwIcon)
      (l : List (Nat × String)),
      deduplicate_windows shouldShow getIcon l =
        (spec_dedup_keep_first (l.filter (fun p => shouldShow p.1))).map
          (fun p => ⟨p.1, p.2, iconFor getIcon p.1⟩) := by
    intro shouldShow getIcon l
    unfold deduplicate_windows
    rw [dedup_go_spec shouldShow getIcon l []]
    congr 2
    simp
  refine ⟨hmain, by decide, ?_⟩
  rw [hmain]
  intro w hw
  simp only [List.mem_map] at hw
  obtain ⟨p, _, rfl⟩ := hw
  rfl

/-- Witness for C9: the surviving first occurrence of title "A" carries
the fallback icon. -/
theorem c9_witness :
    (WindowInfo.mk 10 "A" (iconFor (fun _ => none) 10)).icon = fallback_icon :=
  c9_deduplication.2.2 ⟨10, "A", iconFor (fun _ => none) 10⟩
    (List.mem_cons_self _ _)

/-! ### C2: layout bounds -/

/-- C2 (amended): the divisor `icon_size + padding` is nonzero; whenever
the truncated 80%-width is at least `PADDING` the layout computation is
well-defined (no `u16` underflow); and every computed layout has a column
count in `[1, MAX_COLS]`, bounded by `min n MAX_COLS` for `n ≥ 1`
candidates and floored at 1 for `n = 0`. -/
theorem c2_layout_bounds :
    (0 : Nat) < ICON_SIZE + PADDING ∧
    (∀ w n : Nat, PADDING ≤ mul08TruncU16 w → (calculate_layout w n).isSome) ∧
    (∀ w n : Nat, ∀ L : Layout, calculate_layout w n = some L →
      1 ≤ L.cols ∧ L.cols ≤ MAX_COLS ∧ (1 ≤ n → L.cols ≤ min n MAX_COLS) ∧
      (n = 0 → L.cols = 1)) := by
  refine ⟨by decide, ?_, ?_⟩
  · intro w n hge
    have hlt : ¬ mul08TruncU16 w < PADDING := Nat.not_lt.mpr hge
    simp [calculate_layout, hlt]
  · intro w n L heq
    simp only [calculate_layout] at heq
    by_cases hlt : mul08TruncU16 w < PADDING
    · rw [if_pos hlt] at heq; cases heq
    · rw [if_neg hlt] at heq
      obtain rfl : L = ⟨max (min (min (n % 65536)
          (max ((mul08TruncU16 w - PADDING) / (ICON_SIZE + PADDING)) 1))
          MAX_COLS) 1, ICON_SIZE, PADDING, _⟩ := by
        injection heq with h; exact h.symm
      have hmod : n % 65536 ≤ n := Nat.mod_le n 65536
      have h56 : (48 + 8 : Nat) = 56 := rfl
      refine ⟨by simp, ?_, ?_, ?_⟩
      · simp only [MAX_COLS, ICON_SIZE, PADDING, h56]
        omega
      · intro hn
        simp only [MAX_COLS, ICON_SIZE, PADDING, h56]
        omega
      · intro hn
        subst hn
        simp only [MAX_COLS, ICON_SIZE, PADDING, h56]
        omega

/-- Witness for C2 at screen width 1280 and 3 candidates. -/
theorem c2_witness :
    (calculate_layout 1280 3).isSome ∧
    (1 ≤ (Layout.mk 3 48 8 176).cols ∧ (Layout.mk 3 48 8 176).cols ≤ MAX_COLS ∧
      (1 ≤ 3 → (Layout.mk 3 48 8 176).cols ≤ min 3 MAX_COLS) ∧
      ((3 : Nat) = 0 → (Layout.mk 3 48 8 176).cols = 1)) :=
  ⟨c2_layout_bounds.2.1 1280 3 (by decide),
   c2_layout_bounds.2.2 1280 3 (Layout.mk 3 48 8 176) (by decide)⟩

/-- Counterexample to C2 as stated: at screen width 9 (and candidate count
1 ≥ 1) the truncated 80% width is 7 < PADDING, so the `u16` subtraction
`max_width - PADDING` underflows — the layout computation is *not*
well-defined for every screen width. -/
theorem c2_counterexample :
    (1 : Nat) ≤ 1 ∧ mul08TruncU16 9 < PADDING ∧ calculate_layout 9 1 = none := by
  refine ⟨le_refl 1, by decide, by decide⟩

/-! ### C8: selection navigation -/

/-- C8: a Tab press without the reverse modifier advances the selection to
`(index + 1) mod count`, with it retreats to `count - 1` from 0 and to
`index - 1` otherwise; with `count = 4`, advancing from 3 yields 0 and
retreating from 0 yields 3.  The last two conjuncts state the same about
the daemon event loop itself. -/
theorem c8_navigation_wraps :
    (∀ current count : Nat,
      navigate_selection current count false = (current + 1) % count) ∧
    (∀ current count : Nat,
      navigate_selection current count true =
        if current = 0 then count - 1 else current - 1) ∧
    navigate_selection 3 4 false = 0 ∧
    navigate_selection 0 4 true = 3 ∧
    (∀ (windows : List WindowInfo) (selected : Nat) (sh : Bool)
        (rest : List XEvent),
      run_switcher_loop windows selected (XEvent.keyPress TAB_KEYCODE sh :: rest) =
        (Effect.draw (navigate_selection selected windows.length sh) ::
          (run_switcher_loop windows
            (navigate_selection selected windows.length sh) rest).1,
         (run_switcher_loop windows
            (navigate_selection selected windows.length sh) rest).2)) := by
  refine ⟨fun c n => rfl, fun c n => rfl, by decide, by decide, ?_⟩
  intro windows selected sh rest
  rfl

/-! ### C3: initial selection -/

/-- C3 (amended): in the interactive/daemon variant `initial_selection`
yields 0 for a single candidate, 1 for several candidates without the
reverse modifier, and `count - 1` with it; the keyboard-driven/test
variant however always starts at index 0 (src/switcher.rs line 52): a
Return pressed immediately activates candidate 0, not candidate 1. -/
theorem c3_initial_selection :
    (∀ sh : Bool, initial_selection 1 sh = 0) ∧
    (∀ count : Nat, 1 < count → initial_selection count false = 1) ∧
    (∀ count : Nat, 1 < count → initial_selection count true = count - 1) ∧
    (∀ (shouldShow : Nat → Bool) (getIcon : Nat → Option BwIcon)
        (sw : Nat) (wl : List (Nat × String)) (evs : List XEvent)
        (tr : List Effect),
      run_test_mode shouldShow getIcon sw wl
          (XEvent.keyPress RETURN_KEYCODE false :: evs) = some tr →
      deduplicate_windows shouldShow getIcon wl ≠ [] →
      tr = create_x11_window_trace ++
        [Effect.activate ((deduplicate_windows shouldShow getIcon wl).getD 0
          dummy_window).wid]) := by
  refine ⟨?_, ?_, ?_, ?_⟩
  · intro sh; simp [initial_selection]
  · intro count hc; simp [initial_selection, hc]
  · intro count hc; simp [initial_selection, hc]
  · intro shouldShow getIcon sw wl evs tr htr hne
    simp only [run_test_mode] at htr
    rcases hcl : calculate_layout sw
        (deduplicate_windows shouldShow getIcon wl).length with _ | L
    · rw [hcl] at htr; cases htr
    · rw [hcl] at htr
      have hlen : (deduplicate_windows shouldShow getIcon wl).length ≠ 0 := by
        simpa [List.length_eq_zero] using hne
      rw [if_neg hlen] at htr
      have hloop : run_test_mode_loop (deduplicate_windows shouldShow getIcon wl)
          0 (XEvent.keyPress RETURN_KEYCODE false :: evs) =
          ([Effect.activate ((deduplicate_windows shouldShow getIcon wl).getD 0
            dummy_window).wid], true) := by
        simp [run_test_mode_loop, RETURN_KEYCODE, TAB_KEYCODE, ESCAPE_KEYCODE]
      rw [hloop] at htr
      injection htr with htr
      exact htr.symm

/-- Witness for C3 at five candidates: daemon initial index 1, and a
test-mode run whose immediate Return activates candidate 0 (wid 1). -/
theorem c3_witness :
    initial_selection 5 false = 1 ∧
    create_x11_window_trace ++ [Effect.activate 1] =
      create_x11_window_trace ++
        [Effect.activate ((deduplicate_windows (fun _ => true) (fun _ => none)
          [(1, "A"), (2, "B"), (3, "C"), (4, "D"), (5, "E")]).getD 0
          dummy_window).wid] :=
  ⟨c3_initial_selection.2.1 5 (by decide),
   c3_initial_selection.2.2.2 (fun _ => true) (fun _ => none) 1280
     [(1, "A"), (2, "B"), (3, "C"), (4, "D"), (5, "E")] []
     (create_x11_window_trace ++ [Effect.activate 1]) (by decide) (by decide)⟩

/-- Counterexample to C3 as stated: in the keyboard-driven/test variant
with five candidates and no modifier held, the initial selection is 0, not
1 — an immediate Return activates window id 1 (candidate 0), and the id 2
of candidate 1 is never activated. -/
theorem c3_counterexample :
    1 < (deduplicate_windows (fun _ => true) (fun _ => none)
        [(1, "A"), (2, "B"), (3, "C"), (4, "D"), (5, "E")]).length ∧
    run_test_mode (fun _ => true) (fun _ => none) 1280
        [(1, "A"), (2, "B"), (3, "C"), (4, "D"), (5, "E")]
        [XEvent.keyPress RETURN_KEYCODE false] =
      some (create_x11_window_trace ++ [Effect.activate 1]) ∧
    Effect.activate 2 ∉ create_x11_window_trace ++ [Effect.activate 1] := by
  refine ⟨by decide, by decide, by decide⟩

/-! ### C1: empty candidate list -/

/-- C1 (amended): when filtering/deduplication leaves no candidate, the
session makes no activation call in either variant (the daemon variant
destroys its surface immediately and the test variant just returns) — but
note the X11 window *is* created before the emptiness check; the original
claim that create-window is never invoked is refuted separately. -/
theorem c1_empty_no_activation :
    ∀ (shouldShow : Nat → Bool) (getIcon : Nat → Option BwIcon)
      (sw : Nat) (wl : List (Nat × String)) (sh : Bool) (evs : List XEvent),
      deduplicate_windows shouldShow getIcon wl = [] →
      (∀ tr, show_switcher shouldShow getIcon sw wl sh evs = some tr →
        ∀ wid, Effect.activate wid ∉ tr) ∧
      (∀ tr, run_test_mode shouldShow getIcon sw wl evs = some tr →
        ∀ wid, Effect.activate wid ∉ tr) := by
  intro shouldShow getIcon sw wl sh evs hempty
  constructor
  · intro tr htr wid
    simp only [show_switcher, hempty, List.length_nil] at htr
    rcases hcl : calculate_layout sw 0 with _ | L
    · rw [hcl] at htr; cases htr
    · rw [hcl] at htr
      simp only [if_true, Option.some.injEq] at htr
      subst htr
      simp [create_x11_window_trace]
  · intro tr htr wid
    simp only [run_test_mode, hempty, List.length_nil] at htr
    rcases hcl : calculate_layout sw 0 with _ | L
    · rw [hcl] at htr; cases htr
    · rw [hcl] at htr
      simp only [if_true, Option.some.injEq] at htr
      subst htr
      simp [create_x11_window_trace]

/-- Witness for C1: an empty enumeration, daemon variant. -/
theorem c1_witness :
    Effect.activate 7 ∉ create_x11_window_trace ++ [Effect.destroyWindow] :=
  (c1_empty_no_activation (fun _ => true) (fun _ => none) 1280 [] false [] rfl).1
    (create_x11_window_trace ++ [Effect.destroyWindow]) (by decide) 7

/-- Counterexample to C1 as stated: with an empty candidate list the
daemon session still *creates* (and maps) the X11 surface — the
create-window call appears in the trace — before destroying it; only the
activation call is absent. -/
theorem c1_counterexample :
    deduplicate_windows (fun _ => true) (fun _ => none) [] = [] ∧
    show_switcher (fun _ => true) (fun _ => none) 1280 [] false [] =
      some (create_x11_window_trace ++ [Effect.destroyWindow]) ∧
    Effect.createWindow ∈ create_x11_window_trace ++ [Effect.destroyWindow] := by
  refine ⟨rfl, by decide, by decide⟩

/-! ### C10: title truncation (src/ui.rs, `truncate_title`) -/

/-- UTF-8 encoded size of a character, as stored in a Rust `String`. -/
def charSize (c : Char) : Nat :=
  if c.toNat < 128 then 1 else if c.toNat < 2048 then 2
  else if c.toNat < 65536 then 3 else 4

/-- Byte length of a title, i.e. Rust `str::len()`. -/
def utf8Len (cs : List Char) : Nat := (cs.map charSize).sum

/-- The byte slice `&title[..k]`: `some` of the characters making up the
first `k` bytes when `k` falls on a character boundary inside the string,
`none` when the slice would split a character or overrun — exactly the
cases in which the Rust string-indexing operation panics. -/
def takeBytes : List Char → Nat → Option (List Char)
  | _, 0 => some []
  | [], _ + 1 => none
  | c :: cs, k + 1 =>
    if charSize c ≤ k + 1 then (takeBytes cs (k + 1 - charSize c)).map (c :: ·)
    else none

/-- Embedding of `truncate_title` (src/ui.rs lines 190-197), `none` = panic: when the
byte length exceeds `max_chars = win_width / 7`, the result is the first
`max_chars.saturating_sub(3)` bytes followed by `"..."`. -/
def truncate_title (title : List Char) (win_width : Nat) : Option (List Char) :=
  let max_chars := win_width / 7
  if max_chars < utf8Len title then
    (takeBytes title (max_chars - 3)).map (fun p => p ++ ['.', '.', '.'])
  else some title

lemma utf8Len_eq_length {cs : List Char} (h : ∀ c ∈ cs, charSize c = 1) :
    utf8Len cs = cs.length := by
  induction cs with
  | nil => rfl
  | cons c cs ih =>
    have hc : charSize c = 1 := h c (by simp)
    have hcs : ∀ x ∈ cs, charSize x = 1 := fun x hx => h x (by simp [hx])
    show (List.map charSize (c :: cs)).sum = (c :: cs).length
    rw [List.map_cons, List.sum_cons, hc,
      show (List.map charSize cs).sum = utf8Len cs from rfl, ih hcs]
    simp [Nat.add_comm]

lemma takeBytes_ascii {cs : List Char} (h : ∀ c ∈ cs, charSize c = 1) :
    ∀ k, k ≤ cs.length → takeBytes cs k = some (cs.take k) := by
  induction cs with
  | nil =>
    intro k hk
    obtain rfl : k = 0 := by simpa using hk
    rfl
  | cons c cs ih =>
    intro k hk
    cases k with
    | zero => rfl
    | succ k =>
      have hc : charSize c = 1 := h c (by simp)
      have hcs : ∀ x ∈ cs, charSize x = 1 := fun x hx => h x (by simp [hx])
      simp only [takeBytes, hc, if_pos (by omega : 1 ≤ k + 1)]
      rw [show k + 1 - 1 = k from rfl, ih hcs k (by simpa using hk)]
      rfl

/-- C10 (amended): for titles whose characters all encode in one byte
(in particular all-ASCII titles) the truncation is total: when the byte
length exceeds `win_width / 7` it yields the first `win_width / 7 - 3`
bytes followed by `"..."`, and otherwise the title unchanged.  For
non-ASCII titles the byte cut can split a character and the slice
panics (see the counterexample). -/
theorem c10_truncate_total_ascii :
    ∀ (title : List Char) (win_width : Nat),
      (∀ c ∈ title, charSize c = 1) →
      truncate_title title win_width =
        some (if win_width / 7 < title.length then
          title.take (win_width / 7 - 3) ++ ['.', '.', '.'] else title) := by
  intro title win_width h
  unfold truncate_title
  rw [utf8Len_eq_length h]
  by_cases hlt : win_width / 7 < title.length
  · rw [if_pos hlt, if_pos hlt,
      takeBytes_ascii h (win_width / 7 - 3) (by omega)]
    rfl
  · rw [if_neg hlt, if_neg hlt]

/-- Witness for C10: an ASCII title truncated at width 7. -/
theorem c10_witness :
    truncate_title ['h', 'i'] 7 =
      some (if 7 / 7 < (['h', 'i'] : List Char).length then
        (['h', 'i'] : List Char).take (7 / 7 - 3) ++ ['.', '.', '.']
      else ['h', 'i']) :=
  c10_truncate_total_ascii ['h', 'i'] 7 (by decide)

/-- Counterexample to C10 as stated: the title `"ééé"` (6 UTF-8 bytes) at
window width 28 (`max_chars = 4`) forces a byte slice at index 1, which
falls inside the two-byte encoding of `'é'` — the Rust slice panics, so
the function is not total on non-ASCII titles. -/
theorem c10_counterexample :
    truncate_title ['é', 'é', 'é'] 28 = none := by decide

end Xtabbie
